import Mathlib

/-!
Verification development for the AxiomMind agent core.

Each section shallowly embeds one component of the TypeScript source
(state machine, memory store, persistence port, task decomposer,
inventory tracker, world observer, LLM bridge) as executable Lean
definitions, and proves the testable properties stated in the spec
against them.  Numbers that the source keeps as JavaScript numbers are
modelled as `Nat`, `Int` or `Rat` as appropriate; `Date` values are
modelled as `Nat` timestamps supplied by the caller.
-/

namespace AxiomMind

/-! ## State machine (src/layers/execution/actions/state-machine part of crafting-action.ts) -/

/-- Bot activity states, mirroring `enum BotState` in the execution layer. -/
inductive BotSt
  | idle
  | planning
  | mining
  | crafting
  | navigating
  | combat
  | eating
  | gathering
  | building
  | error
deriving DecidableEq, Repr

open BotSt

/-- One recorded transition, mirroring `interface StateTransition`
(`from`, `to`, `timestamp`, optional `reason`).  `from` and `to` are Lean
keywords, so the fields are named `src` and `dst`. -/
structure StateTransition where
  src : BotSt
  dst : BotSt
  timestamp : Nat
  reason : Option String
deriving DecidableEq, Repr

/-- The mutable parts of `class StateMachine`: current state, previous
state, and bounded history. -/
structure SM where
  currentState : BotSt
  previousState : Option BotSt
  history : List StateTransition
deriving DecidableEq, Repr

/-- Source `maxHistorySize` from the source. -/
def maxHistorySize : Nat := 100

/-- Source `DEFAULT_TRANSITIONS`: the legal transition table, as a function from
the current state to the list of allowed destinations. -/
def DEFAULT_TRANSITIONS : BotSt → List BotSt
  | idle => [planning, eating, error]
  | planning => [mining, crafting, navigating, gathering, combat, idle, error]
  | mining => [idle, navigating, eating, combat, error]
  | crafting => [idle, navigating, error]
  | navigating => [idle, mining, crafting, gathering, building, combat, error]
  | combat => [idle, navigating, eating, error]
  | eating => [idle, mining, navigating, combat, error]
  | gathering => [idle, navigating, mining, error]
  | building => [idle, navigating, error]
  | error => [idle, planning]

/-- Source `canTransition(to)`: the destination is in the allowed list for the
current state. -/
def canTransition (m : SM) (dst : BotSt) : Bool :=
  (DEFAULT_TRANSITIONS m.currentState).contains dst

/-- The initial machine: `currentState = IDLE`, no previous state, empty
history. -/
def initSM : SM :=
  { currentState := idle, previousState := none, history := [] }

/-- History trimming after a push: `if (history.length > maxHistorySize)
history = history.slice(-maxHistorySize)`. -/
def trimHistory (h : List StateTransition) : List StateTransition :=
  if h.length > maxHistorySize then h.drop (h.length - maxHistorySize) else h

/-- Source `transition(to, reason)`.  `now` stands for `new Date()`.  The two
booleans say whether the installed `onExit` / `onEnter` callback throws
during this call; the source catches the throw, reverts `currentState`
to `from` and returns false.  Note that a throwing `onEnter` happens
after the history push, so the pushed record is kept. -/
def transition (m : SM) (dst : BotSt) (reason : Option String) (now : Nat)
    (exitThrows enterThrows : Bool) : SM × Bool :=
  if m.currentState = dst then
    (m, true)
  else if ¬ canTransition m dst then
    (m, false)
  else
    let src := m.currentState
    if exitThrows then
      -- onExit threw before any mutation; the catch re-assigns
      -- currentState := from, which leaves the machine unchanged.
      (m, false)
    else
      let m1 : SM :=
        { currentState := dst
          previousState := some src
          history := trimHistory (m.history ++ [⟨src, dst, now, reason⟩]) }
      if enterThrows then
        ({ m1 with currentState := src }, false)
      else
        (m1, true)

/-- Source `transitionToError(reason)`: delegates to `transition(ERROR, reason)`. -/
def transitionToError (m : SM) (reason : String) (now : Nat)
    (exitThrows enterThrows : Bool) : SM :=
  (transition m error (some reason) now exitThrows enterThrows).1

/-- Source `returnToIdle(reason)`: delegates to `transition(IDLE, reason ||
default)`. -/
def returnToIdle (m : SM) (reason : Option String) (now : Nat)
    (exitThrows enterThrows : Bool) : SM × Bool :=
  transition m idle (some (reason.getD "Returning to idle")) now exitThrows enterThrows

/-- Source `reset()`: forces idle and clears the history. -/
def reset (m : SM) : SM :=
  { currentState := idle, previousState := some m.currentState, history := [] }

/-- Source `clearHistory()`. -/
def clearHistory (m : SM) : SM :=
  { m with history := [] }

/-- One public call on the state machine, for reasoning about arbitrary
call sequences. -/
inductive SMOp
  | trans (dst : BotSt) (reason : Option String) (now : Nat) (exitThrows enterThrows : Bool)
  | toError (reason : String) (now : Nat) (exitThrows enterThrows : Bool)
  | toIdle (reason : Option String) (now : Nat) (exitThrows enterThrows : Bool)
  | doReset
  | doClearHistory

/-- Apply one call. -/
def SMOp.apply (m : SM) : SMOp → SM
  | .trans dst reason now e1 e2 => (transition m dst reason now e1 e2).1
  | .toError reason now e1 e2 => transitionToError m reason now e1 e2
  | .toIdle reason now e1 e2 => (returnToIdle m reason now e1 e2).1
  | .doReset => reset m
  | .doClearHistory => clearHistory m

/-- Run a sequence of calls from a machine. -/
def runSM (m : SM) (ops : List SMOp) : SM :=
  ops.foldl SMOp.apply m

/-- A call whose `onEnter` callback does not throw. -/
def SMOp.noEnterThrow : SMOp → Prop
  | .trans _ _ _ _ e2 => e2 = false
  | .toError _ _ _ e2 => e2 = false
  | .toIdle _ _ _ e2 => e2 = false
  | .doReset => True
  | .doClearHistory => True

instance : DecidablePred SMOp.noEnterThrow := by
  intro op; cases op <;> simp [SMOp.noEnterThrow] <;> infer_instance

/-- The most recent recorded transition (if any) targets the current
state. -/
def lastMatches (m : SM) : Prop :=
  m.history ≠ [] → (m.history.getLast?).map StateTransition.dst = some m.currentState

instance (m : SM) : Decidable (lastMatches m) := by
  unfold lastMatches; infer_instance

theorem trimHistory_length_le (h : List StateTransition) :
    (trimHistory h).length ≤ maxHistorySize ∨ (trimHistory h).length = h.length := by
  unfold trimHistory
  split
  · left
    simp only [List.length_drop]
    omega
  · right; rfl

theorem trimHistory_length_le_of_le (h : List StateTransition)
    (hh : h.length ≤ maxHistorySize + 1) : (trimHistory h).length ≤ maxHistorySize := by
  unfold trimHistory
  split
  · simp only [List.length_drop]; omega
  · omega

theorem trimHistory_getLast? (h : List StateTransition) :
    (trimHistory h).getLast? = h.getLast? := by
  unfold trimHistory
  split
  · next hlen =>
    rcases h.eq_nil_or_concat with rfl | ⟨l, t, rfl⟩
    · simp at hlen
    · simp only [List.concat_eq_append] at hlen ⊢
      rw [List.getLast?_concat]
      have hd : (l ++ [t]).length - maxHistorySize ≤ l.length := by
        simp only [List.length_append, List.length_singleton] at hlen ⊢
        have hm : maxHistorySize = 100 := rfl
        omega
      rw [List.drop_append_of_le_length hd, List.getLast?_concat]
  · rfl

theorem trimHistory_ne_nil (h : List StateTransition) (hne : h ≠ []) :
    trimHistory h ≠ [] := by
  unfold trimHistory
  split
  · next hlen =>
    intro hcon
    have hlen2 := congrArg List.length hcon
    simp only [List.length_drop, List.length_nil] at hlen2
    have hm : maxHistorySize = 100 := rfl
    omega
  · exact hne

theorem transition_cases (m : SM) (dst : BotSt) (reason : Option String)
    (now : Nat) (e1 e2 : Bool) :
    (transition m dst reason now e1 e2).1 = m ∨
    ((transition m dst reason now e1 e2).1.history =
        trimHistory (m.history ++ [⟨m.currentState, dst, now, reason⟩]) ∧
      (e2 = false → (transition m dst reason now e1 e2).1.currentState = dst)) := by
  by_cases h1 : m.currentState = dst
  · left; simp [transition, h1]
  · by_cases h2 : canTransition m dst
    · cases e1 with
      | true => left; simp [transition, h1, h2]
      | false =>
        cases e2 with
        | true =>
          refine Or.inr ⟨?_, ?_⟩
          · simp [transition, h1, h2]
          · intro hc; exact Bool.noConfusion hc
        | false =>
          refine Or.inr ⟨?_, ?_⟩
          · simp [transition, h1, h2]
          · intro _; simp [transition, h1, h2]
    · left; simp [transition, h1, h2]

theorem apply_history_length_le (m : SM) (op : SMOp)
    (h : m.history.length ≤ maxHistorySize) :
    (SMOp.apply m op).history.length ≤ maxHistorySize := by
  have core : ∀ dst reason now e1 e2,
      (transition m dst reason now e1 e2).1.history.length ≤ maxHistorySize := by
    intro dst reason now e1 e2
    rcases transition_cases m dst reason now e1 e2 with heq | ⟨heq, _⟩
    · rw [heq]; exact h
    · rw [heq]
      apply trimHistory_length_le_of_le
      simp only [List.length_append, List.length_singleton]
      omega
  cases op with
  | trans dst reason now e1 e2 => exact core dst reason now e1 e2
  | toError reason now e1 e2 => exact core error (some reason) now e1 e2
  | toIdle reason now e1 e2 => exact core idle (some (reason.getD "Returning to idle")) now e1 e2
  | doReset => simp [SMOp.apply, reset]
  | doClearHistory => simp [SMOp.apply, clearHistory]

theorem apply_lastMatches (m : SM) (op : SMOp) (hno : op.noEnterThrow)
    (h : lastMatches m) : lastMatches (SMOp.apply m op) := by
  have core : ∀ dst reason now e1,
      lastMatches (transition m dst reason now e1 false).1 := by
    intro dst reason now e1
    rcases transition_cases m dst reason now e1 false with heq | ⟨heq, hcur⟩
    · rw [heq]; exact h
    · intro _
      rw [heq, trimHistory_getLast?, List.getLast?_concat, hcur rfl]
      rfl
  cases op with
  | trans dst reason now e1 e2 =>
    have he2 : e2 = false := hno
    subst he2
    exact core dst reason now e1
  | toError reason now e1 e2 =>
    have he2 : e2 = false := hno
    subst he2
    exact core error (some reason) now e1
  | toIdle reason now e1 e2 =>
    have he2 : e2 = false := hno
    subst he2
    exact core idle (some (reason.getD "Returning to idle")) now e1
  | doReset => intro hne; simp [SMOp.apply, reset] at hne
  | doClearHistory => intro hne; simp [SMOp.apply, clearHistory] at hne

theorem runSM_invariant (m : SM) (ops : List SMOp)
    (hlen : m.history.length ≤ maxHistorySize) :
    (runSM m ops).history.length ≤ maxHistorySize ∧
      ((∀ op ∈ ops, op.noEnterThrow) → lastMatches m → lastMatches (runSM m ops)) := by
  induction ops generalizing m with
  | nil => exact ⟨hlen, fun _ hm => hm⟩
  | cons op rest ih =>
    have h1 := apply_history_length_le m op hlen
    have hrec := ih (SMOp.apply m op) h1
    refine ⟨hrec.1, fun hall hm => ?_⟩
    exact hrec.2 (fun o ho => hall o (List.mem_cons_of_mem _ ho))
      (apply_lastMatches m op (hall op (List.mem_cons_self op rest)) hm)

/-- C3 (amended): in every state reachable by any sequence of
`transition`, `transitionToError`, `returnToIdle`, `reset` and
`clearHistory` calls, the history has length at most 100; and if no
call in the sequence had a throwing `onEnter` callback, the most recent
recorded transition (when the history is non-empty) has `to` equal to
the current state.  (A throwing `onEnter` reverts the state after the
transition record was already pushed, so the second part does not
survive such calls; see the counterexample.) -/
theorem stateMachine_history_invariant (ops : List SMOp) :
    (runSM initSM ops).history.length ≤ 100 ∧
      ((∀ op ∈ ops, op.noEnterThrow) → lastMatches (runSM initSM ops)) := by
  have h := runSM_invariant initSM ops (by simp [initSM])
  exact ⟨h.1, fun hall => h.2 hall (fun hne => absurd rfl hne)⟩

/-- Witness for `stateMachine_history_invariant`: a concrete three-call
sequence whose callbacks never throw satisfies its hypothesis, and the
conclusion evaluates on it. -/
theorem stateMachine_history_invariant_witness :
    (∀ op ∈ [SMOp.trans planning (some "plan") 1 false false,
             SMOp.trans mining none 2 false false,
             SMOp.toIdle none 3 false false], op.noEnterThrow) ∧
      ((runSM initSM [SMOp.trans planning (some "plan") 1 false false,
                      SMOp.trans mining none 2 false false,
                      SMOp.toIdle none 3 false false]).history.length ≤ 100 ∧
        lastMatches (runSM initSM [SMOp.trans planning (some "plan") 1 false false,
                                   SMOp.trans mining none 2 false false,
                                   SMOp.toIdle none 3 false false])) :=
  ⟨by decide,
   (stateMachine_history_invariant _).1,
   (stateMachine_history_invariant _).2 (by decide)⟩

/-- C3 counterexample: starting from the initial machine, a single
`transition(planning)` call whose `onEnter` callback throws leaves the
machine in `idle` but keeps the pushed history record targeting
`planning`, so the most recent transition does not match the current
state. -/
theorem stateMachine_lastMatches_counterexample :
    ¬ lastMatches (runSM initSM [SMOp.trans planning none 0 false true]) := by
  decide

/-- First call of the spec scenario: `transition(planning, "plan")` on a
freshly started machine with no callbacks installed. -/
def c2Step1 : SM × Bool := transition initSM planning (some "plan") 1 false false

/-- Second call: `transition(mining)`. -/
def c2Step2 : SM × Bool := transition c2Step1.1 mining none 2 false false

/-- Third call: `transition(eating)`. -/
def c2Step3 : SM × Bool := transition c2Step2.1 eating none 3 false false

/-- Fourth call: `returnToIdle()`. -/
def c2Step4 : SM × Bool := returnToIdle c2Step3.1 none 4 false false

/-- C2 counterexample: the third call, `transition(eating)` from `mining`,
returns true (the default transition table lists `eating` among the legal
destinations of `mining`), not false as the claim states. -/
theorem stateMachine_chain_counterexample :
    c2Step3.2 = true ∧ c2Step3.2 ≠ false ∧ c2Step3.1.currentState ≠ mining := by
  decide

/-- C2 (amended): starting idle with no callbacks, `transition(planning,
"plan")` returns true and the state becomes planning; `transition(mining)`
returns true and the state becomes mining; `transition(eating)` returns
true and the state becomes eating (the transition is legal); then
`returnToIdle()` returns true and the state becomes idle; afterwards the
recorded history has length 4. -/
theorem stateMachine_chain :
    c2Step1.2 = true ∧ c2Step1.1.currentState = planning ∧
    c2Step2.2 = true ∧ c2Step2.1.currentState = mining ∧
    c2Step3.2 = true ∧ c2Step3.1.currentState = eating ∧
    c2Step4.2 = true ∧ c2Step4.1.currentState = idle ∧
    c2Step4.1.history.length = 4 := by
  decide

/-! ## Memory store (tactical/memory-manager.ts) and persistence port (utils/database.ts) -/

/-- Message roles. -/
inductive Role
  | system
  | user
  | assistant
deriving DecidableEq, Repr

/-- A conversation message (`interface Message`). -/
structure Message where
  role : Role
  content : String
deriving DecidableEq, Repr

/-- Source `interface TokenUsage` of the memory manager. -/
structure TokenUsage where
  prompt_tokens : Nat
  completion_tokens : Nat
  total_tokens : Nat
deriving DecidableEq, Repr

/-- Source `interface MemoryConfig`. -/
structure MemoryConfig where
  maxTokens : Nat
  keepMessages : Nat
deriving DecidableEq, Repr

/-- The mutable parts of `class MemoryManager` used by the claims; the
world-state summary and goal list are omitted because no claim reads
them. -/
structure MemoryManager where
  messages : List Message
  systemMessage : Option Message
  tokenUsage : TokenUsage
  config : MemoryConfig
deriving DecidableEq, Repr

/-- JavaScript `array.slice(-count)`: the last `count` elements, except
that `slice(-0)` is `slice(0)` and returns the whole array. -/
def jsSliceLast (l : List Message) (count : Nat) : List Message :=
  if count = 0 then l else l.drop (l.length - count)

/-- Source `trimToCount(count)`: keep only the last `count` messages when there
are more than `count`. -/
def trimToCount (mm : MemoryManager) (count : Nat) : MemoryManager :=
  if mm.messages.length > count then
    { mm with messages := jsSliceLast mm.messages count }
  else mm

/-- Source `autoTrim()`: if `tokenUsage.prompt_tokens` exceeds `config.maxTokens`,
trim to `config.keepMessages` messages. -/
def autoTrim (mm : MemoryManager) : MemoryManager :=
  if mm.tokenUsage.prompt_tokens > mm.config.maxTokens then
    trimToCount mm mm.config.keepMessages
  else mm

/-- Source `addMessage(message)`: append, then auto-trim. -/
def addMessage (mm : MemoryManager) (msg : Message) : MemoryManager :=
  autoTrim { mm with messages := mm.messages ++ [msg] }

/-- Source `updateTokenUsage(usage)`. -/
def updateTokenUsage (mm : MemoryManager) (usage : TokenUsage) : MemoryManager :=
  { mm with tokenUsage := usage }

/-- Source `clear()`: drop all messages and reset the token usage. -/
def clearMemory (mm : MemoryManager) : MemoryManager :=
  { mm with messages := [], tokenUsage := ⟨0, 0, 0⟩ }

/-- The `messages` table of `class DatabaseManager`, in increasing-id
(insertion) order. -/
abbrev DB := List Message

/-- Source `insertMessage(message)`: append with the next autoincrement id. -/
def dbInsertMessage (db : DB) (msg : Message) : DB := db ++ [msg]

/-- Source `getRecentMessages(limit)`: `SELECT ... ORDER BY id DESC LIMIT limit`,
i.e. the last `limit` rows, newest first. -/
def getRecentMessages (db : DB) (limit : Nat) : List Message :=
  db.reverse.take limit

/-- Source `saveToDatabase()`: insert every current in-memory message into the
messages table, in order. -/
def saveToDatabase (mm : MemoryManager) (db : DB) : DB :=
  mm.messages.foldl dbInsertMessage db

/-- Source `loadFromDatabase(limit)`: replace the in-memory list with the rows
returned by `getRecentMessages` as-is — the source does NOT reverse them
(its comment reads: DB returns newest first, so already in correct
order for recent messages). -/
def loadFromDatabase (mm : MemoryManager) (db : DB) (limit : Nat) : MemoryManager :=
  { mm with messages := getRecentMessages db limit }

/-- The round trip of the claim: `saveToDatabase(); clear();
loadFromDatabase(n)` starting from an empty messages table, returning the
resulting in-memory message list. -/
def persistenceRoundTrip (cfg : MemoryConfig) (msgs : List Message) (n : Nat) :
    List Message :=
  let mm : MemoryManager :=
    { messages := msgs, systemMessage := none, tokenUsage := ⟨0, 0, 0⟩, config := cfg }
  let db := saveToDatabase mm []
  (loadFromDatabase (clearMemory mm) db n).messages

theorem saveToDatabase_eq (mm : MemoryManager) (db : DB) :
    saveToDatabase mm db = db ++ mm.messages := by
  unfold saveToDatabase
  induction mm.messages generalizing db with
  | nil => simp
  | cons x xs ih => simp [dbInsertMessage, ih]

/-- C1 counterexample: saving the two-message chronology m1, m2, clearing
and loading 2 yields m2 before m1 (newest first), not the chronological
order m1, m2 the claim states. -/
theorem persistenceRoundTrip_counterexample :
    persistenceRoundTrip ⟨1000, 10⟩ [⟨.user, "m1"⟩, ⟨.user, "m2"⟩] 2 =
      [⟨.user, "m2"⟩, ⟨.user, "m1"⟩] ∧
    persistenceRoundTrip ⟨1000, 10⟩ [⟨.user, "m1"⟩, ⟨.user, "m2"⟩] 2 ≠
      [⟨.user, "m1"⟩, ⟨.user, "m2"⟩] := by
  constructor
  · rfl
  · decide

/-- C1 (amended): `saveToDatabase(); clear(); loadFromDatabase(n)` from an
empty messages table leaves the in-memory list equal to the last
min(n, k) saved messages in REVERSE chronological (newest-first) order —
the port returns rows newest-first and `loadFromDatabase` stores them
without reversing. -/
theorem persistenceRoundTrip_eq (cfg : MemoryConfig) (msgs : List Message) (n : Nat) :
    persistenceRoundTrip cfg msgs n = msgs.reverse.take n ∧
    (persistenceRoundTrip cfg msgs n).length = min n msgs.length ∧
    (persistenceRoundTrip cfg msgs n).reverse = msgs.drop (msgs.length - n) := by
  have h1 : persistenceRoundTrip cfg msgs n = msgs.reverse.take n := by
    unfold persistenceRoundTrip loadFromDatabase getRecentMessages clearMemory
    simp [saveToDatabase_eq]
  refine ⟨h1, ?_, ?_⟩
  · rw [h1]; simp
  · rw [h1, ← List.rtake_eq_reverse_take_reverse, List.rtake]

/-- The configuration of the token-budget-trim scenario:
`maxTokens = 100`, `keepMessages = 5`. -/
def c6Config : MemoryConfig := ⟨100, 5⟩

/-- The scenario start: empty memory with the scenario configuration,
after `updateTokenUsage` with prompt usage 200. -/
def c6Start : MemoryManager :=
  updateTokenUsage
    { messages := [], systemMessage := none, tokenUsage := ⟨0, 0, 0⟩, config := c6Config }
    ⟨200, 50, 250⟩

/-- The fifty appended user messages, with contents m_1 .. m_50. -/
def c6Messages : List Message :=
  (List.range 50).map (fun i => ⟨.user, "m_" ++ toString (i + 1)⟩)

/-- The memory after the fifty `addMessage` calls. -/
def c6Final : MemoryManager := c6Messages.foldl addMessage c6Start

set_option maxRecDepth 8192 in
/-- C6: with `maxTokens = 100` and `keepMessages = 5`, after recording
prompt usage 200 and appending fifty user messages m_1 .. m_50, the
message list has length 5 and ends with m_50; and in general, whenever
the recorded prompt usage exceeds `maxTokens`, an `addMessage` leaves at
most max(keepMessages, count-before + 1) messages. -/
theorem memory_token_budget_trim :
    (c6Final.messages.length = 5 ∧
      (c6Final.messages.getLast?).map Message.content = some "m_50") ∧
    ∀ (mm : MemoryManager) (msg : Message),
      mm.tokenUsage.prompt_tokens > mm.config.maxTokens →
      (addMessage mm msg).messages.length ≤
        max mm.config.keepMessages (mm.messages.length + 1) := by
  constructor
  · constructor
    · decide
    · decide
  · intro mm msg hgt
    unfold addMessage autoTrim trimToCount jsSliceLast
    simp only [hgt, if_pos]
    split
    · split
      · simp only [List.length_append, List.length_cons, List.length_nil]
        omega
      · simp only [List.length_drop, List.length_append, List.length_cons, List.length_nil]
        omega
    · simp only [List.length_append, List.length_cons, List.length_nil]
      omega

/-- Witness for `memory_token_budget_trim`: the scenario start satisfies
the token hypothesis (200 > 100), and the bound evaluates there. -/
theorem memory_token_budget_trim_witness :
    c6Start.tokenUsage.prompt_tokens > c6Start.config.maxTokens ∧
    (addMessage c6Start ⟨.user, "x"⟩).messages.length ≤
      max c6Start.config.keepMessages (c6Start.messages.length + 1) :=
  ⟨by decide, memory_token_budget_trim.2 c6Start ⟨.user, "x"⟩ (by decide)⟩

/-! ## LLM bridge (strategic/ai-client.ts) -/

/-- A tool declaration sent to the model; only its identity matters to
the claims. -/
structure ToolDefinition where
  name : String
  description : String
deriving DecidableEq, Repr

/-- The bridge's `interface ToolCall`: id, name, arguments. -/
structure AIToolCall where
  id : String
  name : String
  arguments : List (String × String)
deriving DecidableEq, Repr

/-- The bridge's `interface ChatResponse`; `toolCalls` is optional in the
source and set only when at least one call was collected. -/
structure ChatResponse where
  content : String
  toolCalls : Option (List AIToolCall)
  usage : TokenUsage
deriving DecidableEq, Repr

/-- One tool-invocation event the streaming client delivers to the
`onToolCall` handler: an optional model-provided id plus name and
arguments. -/
structure ToolCallEvent where
  id : Option String
  name : String
  params : List (String × String)
deriving DecidableEq, Repr

/-- One raw chunk surfaced by the response stream: a well-formed `data:`
frame carrying a text delta, a well-formed frame without one, or a
malformed chunk that the handler silently drops. -/
inductive StreamChunk
  | delta (s : String)
  | noDelta
  | malformed
deriving DecidableEq, Repr

/-- Source `chatWithTools(messages, tools, options)`: collects a `ToolCall`
record for every streamed tool event (synthesizing `call_<now>` when the
model gives no id), accumulates the text deltas of the stream into
`content`, and — because token usage is unavailable in streaming mode —
always returns `usage = zeros`. -/
def chatWithTools (messages : List Message) (tools : List ToolDefinition)
    (toolEvents : List ToolCallEvent) (chunks : List StreamChunk) (now : Nat) :
    ChatResponse :=
  let toolCalls : List AIToolCall := toolEvents.map (fun e =>
    { id := e.id.getD ("call_" ++ toString now), name := e.name, arguments := e.params })
  let contentParts : List String := chunks.filterMap (fun c =>
    match c with
    | .delta s => some s
    | .noDelta => none
    | .malformed => none)
  { content := String.join contentParts
    toolCalls := if toolCalls.length > 0 then some toolCalls else none
    usage := ⟨0, 0, 0⟩ }

/-- C8: for every input, `chatWithTools` reports zero token usage, so a
decision cycle that feeds its `usage` into `updateTokenUsage` leaves the
recorded prompt usage at 0 and the subsequent `addMessage` never
auto-trims: the message list is exactly the old list plus the new
message. -/
theorem chatWithTools_usage_zero (messages : List Message)
    (tools : List ToolDefinition) (toolEvents : List ToolCallEvent)
    (chunks : List StreamChunk) (now : Nat) :
    (chatWithTools messages tools toolEvents chunks now).usage = ⟨0, 0, 0⟩ ∧
    ∀ (mm : MemoryManager) (msg : Message),
      (updateTokenUsage mm
          (chatWithTools messages tools toolEvents chunks now).usage).tokenUsage.prompt_tokens
        = 0 ∧
      (addMessage
          (updateTokenUsage mm (chatWithTools messages tools toolEvents chunks now).usage)
          msg).messages
        = mm.messages ++ [msg] := by
  refine ⟨rfl, fun mm msg => ⟨rfl, ?_⟩⟩
  simp [addMessage, autoTrim, updateTokenUsage, chatWithTools]

/-! ## Task decomposer (tactical/task-decomposer.ts) -/

/-- Task statuses. -/
inductive TaskStatus
  | pending
  | in_progress
  | completed
  | failed
  | blocked
deriving DecidableEq, Repr

/-- Source `interface Task`.  `parameters` is abstracted to a string map; dates
are `Nat` timestamps. -/
structure Task where
  id : String
  goalId : String
  description : String
  action : String
  parameters : List (String × String)
  priority : Int
  status : TaskStatus
  dependencies : List String
  estimatedDuration : Option Nat
  createdAt : Nat
  completedAt : Option Nat
  error : Option String
deriving DecidableEq, Repr

/-- The decomposer's `tasks: Map<string, Task>`, as an association list in
insertion order (a JavaScript Map iterates in insertion order, and
`set` on an existing key updates in place). -/
abbrev TaskStore := List (String × Task)

/-- Source `tasks.get(id)`. -/
def storeGet (s : TaskStore) (id : String) : Option Task :=
  (s.find? (fun p => p.1 = id)).map (fun p => p.2)

/-- Source `tasks.set(id, t)`: in-place update when the key exists, append
otherwise. -/
def storeSet (s : TaskStore) (id : String) (t : Task) : TaskStore :=
  if s.any (fun p => p.1 = id) then
    s.map (fun p => if p.1 = id then (id, t) else p)
  else s ++ [(id, t)]

/-- Source `updateTaskStatus(taskId, status, error?)`: sets the status, sets the
error when one is given, and sets `completedAt = now` when the new status
is completed — it never clears `completedAt` for other statuses. -/
def updateTaskStatus (s : TaskStore) (id : String) (status : TaskStatus)
    (err : Option String) (now : Nat) : TaskStore :=
  match storeGet s id with
  | none => s
  | some t =>
    let t1 := { t with status := status }
    let t2 := if err.isSome then { t1 with error := err } else t1
    let t3 := if status = .completed then { t2 with completedAt := some now } else t2
    storeSet s id t3

/-- Source `canExecuteTask(task)`: pending, and every dependency resolves to a
completed task. -/
def canExecuteTask (s : TaskStore) (t : Task) : Bool :=
  t.status = TaskStatus.pending &&
    t.dependencies.all (fun depId =>
      match storeGet s depId with
      | some d => d.status = TaskStatus.completed
      | none => false)

/-- Source `startTask(taskId)`: marks an executable task in-progress. -/
def startTask (s : TaskStore) (id : String) : TaskStore × Bool :=
  match storeGet s id with
  | none => (s, false)
  | some t =>
    if canExecuteTask s t then
      (storeSet s id { t with status := .in_progress }, true)
    else (s, false)

/-- Source `completeTask(taskId)`. -/
def completeTask (s : TaskStore) (id : String) (now : Nat) : TaskStore :=
  updateTaskStatus s id .completed none now

/-- Source `failTask(taskId, error)`. -/
def failTask (s : TaskStore) (id : String) (err : String) (now : Nat) : TaskStore :=
  updateTaskStatus s id .failed (some err) now

/-- Source `Array.from(this.tasks.values())`. -/
def storeValues (s : TaskStore) : List Task := s.map (fun p => p.2)

/-- Stable insertion of a task into a priority-sorted list: the new task
goes before the first element of strictly larger priority, matching the
stable JavaScript `sort((a, b) => a.priority - b.priority)`. -/
def insertByPriority (t : Task) : List Task → List Task
  | [] => [t]
  | x :: xs => if x.priority < t.priority then x :: insertByPriority t xs else t :: x :: xs

/-- Stable sort by ascending priority. -/
def sortByPriority : List Task → List Task
  | [] => []
  | x :: xs => insertByPriority x (sortByPriority xs)

/-- Source `getPendingTasks()`: pending tasks sorted by ascending priority. -/
def getPendingTasks (s : TaskStore) : List Task :=
  sortByPriority ((storeValues s).filter (fun t => t.status = TaskStatus.pending))

/-- Source `getNextExecutableTask()`: the first pending task all of whose
dependencies are completed. -/
def getNextExecutableTask (s : TaskStore) : Option Task :=
  (getPendingTasks s).find? (fun t => canExecuteTask s t)

/-- The counts returned by `getTaskStatistics(goalId?)`. -/
structure TaskStats where
  total : Nat
  pending : Nat
  inProgress : Nat
  completed : Nat
  failed : Nat
  blocked : Nat
deriving DecidableEq, Repr

/-- Tasks restricted to a goal when one is given. -/
def tasksFor (s : TaskStore) (goalId : Option String) : List Task :=
  match goalId with
  | none => storeValues s
  | some g => (storeValues s).filter (fun t => t.goalId = g)

/-- Source `getTaskStatistics(goalId?)`. -/
def getTaskStatistics (s : TaskStore) (goalId : Option String) : TaskStats :=
  let ts := tasksFor s goalId
  { total := ts.length
    pending := (ts.filter (fun t => t.status = TaskStatus.pending)).length
    inProgress := (ts.filter (fun t => t.status = TaskStatus.in_progress)).length
    completed := (ts.filter (fun t => t.status = TaskStatus.completed)).length
    failed := (ts.filter (fun t => t.status = TaskStatus.failed)).length
    blocked := (ts.filter (fun t => t.status = TaskStatus.blocked)).length }

/-- Source `Math.round((completed / total) * 100)` for non-negative operands:
floor(100 c / t + 1/2) computed exactly as (200 c + t) / (2 t) in
integer arithmetic. -/
def roundPercent (completed total : Nat) : Nat :=
  (2 * (completed * 100) + total) / (2 * total)

/-- Source `getProgress(goalId?)`: 0 with no tasks, else the rounded completion
percentage. -/
def getProgress (s : TaskStore) (goalId : Option String) : Nat :=
  let stats := getTaskStatistics s goalId
  if stats.total = 0 then 0 else roundPercent stats.completed stats.total

/-- One public status-mutating call on the decomposer. -/
inductive TDOp
  | update (id : String) (status : TaskStatus) (err : Option String) (now : Nat)
  | start (id : String)
  | complete (id : String) (now : Nat)
  | fail (id : String) (err : String) (now : Nat)

/-- Apply one call. -/
def TDOp.apply (s : TaskStore) : TDOp → TaskStore
  | .update id status err now => updateTaskStatus s id status err now
  | .start id => (startTask s id).1
  | .complete id now => completeTask s id now
  | .fail id err now => failTask s id err now

/-- Run a sequence of calls. -/
def runTD (s : TaskStore) (ops : List TDOp) : TaskStore :=
  ops.foldl TDOp.apply s

/-- The provable direction of invariant I6: a completed task has
`completedAt` set. -/
def completedConsistent (t : Task) : Prop :=
  t.status = TaskStatus.completed → t.completedAt.isSome

instance (t : Task) : Decidable (completedConsistent t) := by
  unfold completedConsistent; infer_instance

theorem mem_storeSet (s : TaskStore) (id : String) (t : Task) (p : String × Task)
    (hp : p ∈ storeSet s id t) : p.2 = t ∨ p ∈ s := by
  unfold storeSet at hp
  split at hp
  · rcases List.mem_map.mp hp with ⟨q, hq, hfq⟩
    by_cases hqid : q.1 = id
    · left; rw [if_pos hqid] at hfq; rw [← hfq]
    · right; rw [if_neg hqid] at hfq; rw [← hfq]; exact hq
  · rcases List.mem_append.mp hp with h | h
    · right; exact h
    · left; rw [List.mem_singleton.mp h]

theorem updateTaskStatus_completedConsistent (s : TaskStore) (id : String)
    (status : TaskStatus) (err : Option String) (now : Nat)
    (hs : ∀ p ∈ s, completedConsistent p.2) :
    ∀ p ∈ updateTaskStatus s id status err now, completedConsistent p.2 := by
  intro p hp
  unfold updateTaskStatus at hp
  split at hp
  · exact hs p hp
  · next t _ =>
    rcases mem_storeSet _ _ _ _ hp with heq | hmem
    · rw [heq]
      by_cases hc : status = TaskStatus.completed
      · intro _
        simp [if_pos hc]
      · intro hcon
        exfalso
        apply hc
        revert hcon
        by_cases he : err.isSome <;> simp [hc, he]
    · exact hs p hmem

theorem TDOp.apply_completedConsistent (s : TaskStore) (op : TDOp)
    (hs : ∀ p ∈ s, completedConsistent p.2) :
    ∀ p ∈ TDOp.apply s op, completedConsistent p.2 := by
  cases op with
  | update id status err now => exact updateTaskStatus_completedConsistent s id status err now hs
  | start id =>
    intro p hp
    have hp2 : p ∈ (startTask s id).1 := hp
    unfold startTask at hp2
    rcases hfind : storeGet s id with _ | t
    · rw [hfind] at hp2
      exact hs p hp2
    · rw [hfind] at hp2
      dsimp only at hp2
      by_cases hcan : canExecuteTask s t
      · rw [if_pos hcan] at hp2
        rcases mem_storeSet _ _ _ _ hp2 with heq | hmem
        · rw [heq]; intro hcon; exact absurd hcon (by simp)
        · exact hs p hmem
      · rw [if_neg hcan] at hp2
        exact hs p hp2
  | complete id now => exact updateTaskStatus_completedConsistent s id .completed none now hs
  | fail id err now => exact updateTaskStatus_completedConsistent s id .failed (some err) now hs

/-- A fresh decomposed task: status pending, `completedAt` unset. -/
def c4Task : Task :=
  { id := "T1", goalId := "g", description := "mine stone", action := "mine_block"
    parameters := [], priority := 1, status := .pending, dependencies := []
    estimatedDuration := some 30, createdAt := 0, completedAt := none, error := none }

/-- A store holding only the fresh task. -/
def c4Store : TaskStore := [("T1", c4Task)]

/-- C4 counterexample: completing the fresh task and then marking it
failed leaves a task whose status is failed but whose `completedAt` is
still set, refuting the claimed iff (and in particular the claim that
complete-then-fail leaves `completedAt` unset). -/
theorem task_completedAt_counterexample :
    ¬ (∀ p ∈ runTD c4Store [TDOp.complete "T1" 5, TDOp.fail "T1" "boom" 6],
        (p.2.completedAt.isSome ↔ p.2.status = TaskStatus.completed)) := by
  decide

/-- C4 (amended): after any sequence of `updateTaskStatus`, `startTask`,
`completeTask` and `failTask` calls on a store of tasks whose completed
entries all carry `completedAt` (as freshly decomposed, all-pending
stores do), every task with status completed has `completedAt` set; but
`completedAt` is never cleared, so completing a task and then marking it
failed leaves status failed with `completedAt` still set. -/
theorem task_completedAt_invariant :
    (∀ (ops : List TDOp) (s : TaskStore),
      (∀ p ∈ s, completedConsistent p.2) →
      ∀ p ∈ runTD s ops, completedConsistent p.2) ∧
    (storeGet (runTD c4Store [TDOp.complete "T1" 5, TDOp.fail "T1" "boom" 6]) "T1").map
        Task.status = some TaskStatus.failed ∧
    (storeGet (runTD c4Store [TDOp.complete "T1" 5, TDOp.fail "T1" "boom" 6]) "T1").map
        Task.completedAt = some (some 5) := by
  refine ⟨?_, by decide, by decide⟩
  intro ops
  induction ops with
  | nil => intro s hs; exact hs
  | cons op rest ih =>
    intro s hs
    exact ih (TDOp.apply s op) (TDOp.apply_completedConsistent s op hs)

/-- Witness for `task_completedAt_invariant`: the singleton all-pending
store satisfies the hypothesis, and the invariant evaluates after a
concrete complete-then-fail run. -/
theorem task_completedAt_invariant_witness :
    (∀ p ∈ c4Store, completedConsistent p.2) ∧
    (∀ p ∈ runTD c4Store [TDOp.complete "T1" 5, TDOp.fail "T1" "boom" 6],
      completedConsistent p.2) :=
  ⟨by decide,
   task_completedAt_invariant.1 [TDOp.complete "T1" 5, TDOp.fail "T1" "boom" 6] c4Store
     (by decide)⟩

/-- T1 of the task-DAG scenario: no dependencies. -/
def c5T1 : Task :=
  { id := "g1_task_1", goalId := "g1", description := "step 1", action := "mine_block"
    parameters := [], priority := 1, status := .pending, dependencies := []
    estimatedDuration := some 30, createdAt := 0, completedAt := none, error := none }

/-- T2: depends on T1. -/
def c5T2 : Task :=
  { id := "g1_task_2", goalId := "g1", description := "step 2", action := "craft_item"
    parameters := [], priority := 2, status := .pending, dependencies := ["g1_task_1"]
    estimatedDuration := some 30, createdAt := 0, completedAt := none, error := none }

/-- T3: depends on T2. -/
def c5T3 : Task :=
  { id := "g1_task_3", goalId := "g1", description := "step 3", action := "goto_location"
    parameters := [], priority := 3, status := .pending, dependencies := ["g1_task_2"]
    estimatedDuration := some 30, createdAt := 0, completedAt := none, error := none }

/-- The decomposed store of the scenario: exactly T1, T2, T3, pending. -/
def c5Store0 : TaskStore :=
  [("g1_task_1", c5T1), ("g1_task_2", c5T2), ("g1_task_3", c5T3)]

/-- The store after `completeTask(T1)`. -/
def c5Store1 : TaskStore := completeTask c5Store0 "g1_task_1" 10

/-- The store after `completeTask(T2)`. -/
def c5Store2 : TaskStore := completeTask c5Store1 "g1_task_2" 20

/-- The store after `completeTask(T3)`. -/
def c5Store3 : TaskStore := completeTask c5Store2 "g1_task_3" 30

/-- C5 counterexample: with T1 and T2 completed out of three tasks, the
source computes `Math.round((2 / 3) * 100) = 67`, not the claimed 66. -/
theorem taskDag_progress_counterexample :
    getProgress c5Store2 none = 67 ∧ getProgress c5Store2 none ≠ 66 := by
  decide

/-- C5 (amended): for the goal decomposed into pending tasks T1 (no
dependencies), T2 (depending on T1) and T3 (depending on T2):
`getNextExecutableTask()` returns T1; after `completeTask(T1)` it returns
T2; after `completeTask(T2)` it returns T3 and `getProgress()` equals 67
(the rounding of 2/3); after `completeTask(T3)`, `getProgress()` equals
100. -/
theorem taskDag_scenario :
    (getNextExecutableTask c5Store0).map Task.id = some "g1_task_1" ∧
    (getNextExecutableTask c5Store1).map Task.id = some "g1_task_2" ∧
    (getNextExecutableTask c5Store2).map Task.id = some "g1_task_3" ∧
    getProgress c5Store2 none = 67 ∧
    getProgress c5Store3 none = 100 := by
  decide

/-! ## Inventory tracker (perception/inventory-tracker.ts) -/

/-- One inventory stack as surfaced by `bot.inventory.items()`.  The game
client only reports non-empty stacks, which the positivity hypotheses
below record. -/
structure Stack where
  name : String
  count : Nat
deriving DecidableEq, Repr

/-- The aggregate inventory map (item name to total count), as an
association list in Map insertion order. -/
abbrev InvMap := List (String × Nat)

/-- Source `map.get(name)`. -/
def invLookup (m : InvMap) (name : String) : Option Nat :=
  (m.find? (fun p => p.1 = name)).map (fun p => p.2)

/-- Source `map.set(name, (map.get(name) || 0) + count)`: in-place update when
the key exists, append otherwise. -/
def invInsertAdd (m : InvMap) (s : Stack) : InvMap :=
  match invLookup m s.name with
  | some c => m.map (fun p => if p.1 = s.name then (p.1, c + s.count) else p)
  | none => m ++ [(s.name, s.count)]

/-- Source `getInventoryMap()`: fold the stacks into the aggregate map. -/
def getInventoryMap (itemStacks : List Stack) : InvMap :=
  itemStacks.foldl invInsertAdd []

/-- The change kinds of `interface InventoryChange`. -/
inductive ChangeType
  | added
  | removed
  | changed
deriving DecidableEq, Repr

/-- Source `interface InventoryChange`. -/
structure InventoryChange where
  timestamp : Nat
  type : ChangeType
  item : String
  countBefore : Nat
  countAfter : Nat
  delta : Int
deriving DecidableEq, Repr

/-- The change-detection body of `onInventoryChange()`: one pass over the
current map comparing against the previous counts, then one pass over the
previous map for items that disappeared entirely. -/
def detectChanges (currentInventory previousInventory : InvMap) (now : Nat) :
    List InventoryChange :=
  (currentInventory.filterMap (fun p =>
    let previousCount := (invLookup previousInventory p.1).getD 0
    if p.2 ≠ previousCount then
      let delta : Int := (p.2 : Int) - (previousCount : Int)
      some { timestamp := now
             type := if delta > 0 then .added else if delta < 0 then .removed else .changed
             item := p.1
             countBefore := previousCount
             countAfter := p.2
             delta := delta }
    else none))
  ++ (previousInventory.filterMap (fun p =>
    if invLookup currentInventory p.1 = none then
      some { timestamp := now, type := .removed, item := p.1
             countBefore := p.2, countAfter := 0, delta := -(p.2 : Int) }
    else none))

/-- Source `maxHistorySize` of the tracker. -/
def invMaxHistorySize : Nat := 100

/-- Source `onInventoryChange()`: rebuild the aggregate map, append the detected
changes to the bounded ring, and retain it as the new previous map.
Returns (new previous map, new change history). -/
def onInventoryChange (previousInventory : InvMap)
    (changeHistory : List InventoryChange) (curStacks : List Stack) (now : Nat) :
    InvMap × List InventoryChange :=
  let currentInventory := getInventoryMap curStacks
  let changes := detectChanges currentInventory previousInventory now
  let newHistory :=
    if changes.length > 0 then
      let nh := changeHistory ++ changes
      if nh.length > invMaxHistorySize then nh.drop (nh.length - invMaxHistorySize) else nh
    else changeHistory
  (currentInventory, newHistory)

/-- The shape invariant I5 claims of every recorded change. -/
def changeWellFormed (c : InventoryChange) : Prop :=
  c.type ≠ ChangeType.changed ∧ c.delta ≠ 0 ∧
  (c.type = ChangeType.added ↔ 0 < c.delta) ∧
  (c.type = ChangeType.removed ↔ c.delta < 0) ∧
  (c.countAfter : Int) = (c.countBefore : Int) + c.delta

theorem invInsertAdd_pos (m : InvMap) (s : Stack) (hs : 1 ≤ s.count)
    (hm : ∀ p ∈ m, 1 ≤ p.2) : ∀ p ∈ invInsertAdd m s, 1 ≤ p.2 := by
  intro p hp
  unfold invInsertAdd at hp
  split at hp
  · rcases List.mem_map.mp hp with ⟨q, hq, hfq⟩
    by_cases hqn : q.1 = s.name
    · rw [if_pos hqn] at hfq
      rw [← hfq]
      simp only
      omega
    · rw [if_neg hqn] at hfq
      rw [← hfq]
      exact hm q hq
  · rcases List.mem_append.mp hp with h | h
    · exact hm p h
    · rw [List.mem_singleton.mp h]
      exact hs

theorem getInventoryMap_pos (itemStacks : List Stack)
    (hs : ∀ s ∈ itemStacks, 1 ≤ s.count) : ∀ p ∈ getInventoryMap itemStacks, 1 ≤ p.2 := by
  unfold getInventoryMap
  suffices h : ∀ (m : InvMap), (∀ p ∈ m, 1 ≤ p.2) →
      ∀ p ∈ itemStacks.foldl invInsertAdd m, 1 ≤ p.2 by
    exact h [] (by intro p hp; cases hp)
  induction itemStacks with
  | nil => intro m hm; exact hm
  | cons x xs ih =>
    intro m hm
    exact ih (fun s hmem => hs s (List.mem_cons_of_mem _ hmem))
      (invInsertAdd m x)
      (invInsertAdd_pos m x (hs x (List.mem_cons_self x xs)) hm)

theorem detectChanges_wellFormed (currentInventory previousInventory : InvMap)
    (now : Nat) (hprev : ∀ p ∈ previousInventory, 1 ≤ p.2) :
    ∀ c ∈ detectChanges currentInventory previousInventory now, changeWellFormed c := by
  intro c hc
  unfold detectChanges at hc
  rcases List.mem_append.mp hc with h | h
  · rcases List.mem_filterMap.mp h with ⟨p, _, hfp⟩
    simp only at hfp
    set previousCount := (invLookup previousInventory p.1).getD 0 with hpc
    by_cases hne : p.2 ≠ previousCount
    · rw [if_pos hne] at hfp
      set delta : Int := (p.2 : Int) - (previousCount : Int) with hd
      have hdne : delta ≠ 0 := by
        rw [hd]
        intro hcon
        exact hne (by omega)
      injection hfp with hfp
      rw [← hfp]
      unfold changeWellFormed
      dsimp only
      rcases lt_trichotomy delta 0 with hlt | hzero | hgt
      · rw [if_neg (by omega : ¬ delta > 0), if_pos hlt]
        refine ⟨by decide, hdne, ?_, ?_, by omega⟩
        · exact ⟨fun hcon => absurd hcon (by decide), fun hcon => absurd hcon (by omega)⟩
        · exact ⟨fun _ => hlt, fun _ => rfl⟩
      · exact absurd hzero hdne
      · rw [if_pos hgt]
        refine ⟨by decide, hdne, ?_, ?_, by omega⟩
        · exact ⟨fun _ => hgt, fun _ => rfl⟩
        · exact ⟨fun hcon => absurd hcon (by decide), fun hcon => absurd hcon (by omega)⟩
    · rw [if_neg hne] at hfp
      exact absurd hfp (by simp)
  · rcases List.mem_filterMap.mp h with ⟨p, hpmem, hfp⟩
    by_cases hnone : invLookup currentInventory p.1 = none
    · rw [if_pos hnone] at hfp
      injection hfp with hfp
      have hpos : 1 ≤ p.2 := hprev p hpmem
      rw [← hfp]
      unfold changeWellFormed
      dsimp only
      refine ⟨by decide, by omega, ?_, ?_, by omega⟩
      · exact ⟨fun hcon => absurd hcon (by decide), fun hcon => absurd hcon (by omega)⟩
      · exact ⟨fun _ => by omega, fun _ => rfl⟩
    · rw [if_neg hnone] at hfp
      exact absurd hfp (by simp)

/-- C9: the tracker never records a change of kind changed, and every
change appended to the ring by `onInventoryChange` (everything in the new
history that was not already there) has delta different from 0, kind
added exactly when delta is positive, removed exactly when delta is
negative, and countAfter = countBefore + delta — provided the previous
snapshot came from game-client stacks, which are never empty. -/
theorem inventoryChange_wellFormed (prevStacks curStacks : List Stack)
    (history : List InventoryChange) (now : Nat)
    (hpos : ∀ s ∈ prevStacks, 1 ≤ s.count) :
    ∀ c ∈ (onInventoryChange (getInventoryMap prevStacks) history curStacks now).2,
      c ∈ history ∨ changeWellFormed c := by
  intro c hc
  unfold onInventoryChange at hc
  simp only at hc
  have hsub : ∀ {l : List InventoryChange},
      c ∈ l → l = history ++ detectChanges (getInventoryMap curStacks)
        (getInventoryMap prevStacks) now → c ∈ history ∨ changeWellFormed c := by
    intro l hl hleq
    subst hleq
    rcases List.mem_append.mp hl with h | h
    · exact Or.inl h
    · exact Or.inr (detectChanges_wellFormed _ _ now (getInventoryMap_pos prevStacks hpos) c h)
  split at hc
  · split at hc
    · exact hsub (List.mem_of_mem_drop hc) rfl
    · exact hsub hc rfl
  · exact Or.inl hc

/-- Witness for `inventoryChange_wellFormed`: a concrete pickup of two
oak logs satisfies the stack-positivity hypothesis, and the conclusion
evaluates on the produced history. -/
theorem inventoryChange_wellFormed_witness :
    (∀ s ∈ [Stack.mk "oak_log" 3], 1 ≤ s.count) ∧
    (∀ c ∈ (onInventoryChange (getInventoryMap [Stack.mk "oak_log" 3]) []
        [Stack.mk "oak_log" 5] 7).2,
      c ∈ ([] : List InventoryChange) ∨ changeWellFormed c) :=
  ⟨by decide,
   inventoryChange_wellFormed [Stack.mk "oak_log" 3] [Stack.mk "oak_log" 5] [] 7 (by decide)⟩

/-! ## World observer (perception/world-observer.ts) -/

/-- Danger kinds of `interface DangerObservation`. -/
inductive DangerType
  | lava
  | cliff
  | hostile_mob
  | low_health
  | low_food
deriving DecidableEq, Repr

/-- Danger severities. -/
inductive Severity
  | low
  | medium
  | high
  | critical
deriving DecidableEq, Repr

/-- Real-valued world coordinates, modelled as rationals. -/
structure Vec3 where
  x : ℚ
  y : ℚ
  z : ℚ
deriving DecidableEq, Repr

/-- Source `interface DangerObservation`. -/
structure DangerObservation where
  type : DangerType
  severity : Severity
  description : String
  position : Option Vec3
deriving DecidableEq, Repr

/-- The part of `interface BlockObservation` the danger rules read. -/
structure BlockObservation where
  name : String
  position : Vec3
  distance : ℚ
deriving DecidableEq, Repr

/-- The part of `interface EntityObservation` the danger rules read. -/
structure EntityObservation where
  name : String
  position : Vec3
  distance : ℚ
  isHostile : Bool
deriving DecidableEq, Repr

/-- The neighbor offsets `detectCliff` visits: x from -3 to 3 in the
outer loop, z from -3 to 3 in the inner loop, skipping (0, 0). -/
def cliffOffsets : List (Int × Int) :=
  ((List.range 7).flatMap (fun xi =>
    (List.range 7).map (fun zi => ((xi : Int) - 3, (zi : Int) - 3)))).filter
    (fun p => !(p.1 == 0 && p.2 == 0))

/-- The inner loop of `detectCliff`: starting at the neighbor column's
own level and scanning 10 cells downward (offsets 0 .. -9), the first
depth at which `blockAt(...)` is a solid block.  `solid x y z` models
`blockAt(x, y, z)?.boundingBox === 'block'` on the integer block grid. -/
def firstSolidDepth (solid : Int → Int → Int → Bool) (px py pz dx dz : Int) :
    Option Nat :=
  (List.range 10).find? (fun k => solid (px + dx) (py - (k : Int)) (pz + dz))

/-- Source `dropDistance` of one neighbor column: the first solid depth, or 0
when no solid block is found within the scanned 10 cells. -/
def dropDistanceAt (solid : Int → Int → Int → Bool) (px py pz dx dz : Int) : Nat :=
  (firstSolidDepth solid px py pz dx dz).getD 0

/-- One column's contribution: a danger is raised iff `dropDistance > 4`. -/
def colCliff (solid : Int → Int → Int → Bool) (px py pz dx dz : Int) : Option Nat :=
  if dropDistanceAt solid px py pz dx dz > 4 then
    some (dropDistanceAt solid px py pz dx dz)
  else none

/-- The column scan: first offset (in visit order) whose drop is
dangerous; short-circuits like the source's early `return`. -/
def scanCols (solid : Int → Int → Int → Bool) (px py pz : Int) :
    List (Int × Int) → Option (Int × Int × Nat)
  | [] => none
  | (dx, dz) :: rest =>
    match colCliff solid px py pz dx dz with
    | some d => some (dx, dz, d)
    | none => scanCols solid px py pz rest

/-- Source `detectCliff()`: block coordinates come from flooring the bot's real
position; the reported position is the un-floored `botPos.offset(x, 0, z)`. -/
def detectCliff (solid : Int → Int → Int → Bool) (botPos : Vec3) :
    Option DangerObservation :=
  (scanCols solid (Int.floor botPos.x) (Int.floor botPos.y) (Int.floor botPos.z)
      cliffOffsets).map (fun r =>
    { type := DangerType.cliff
      severity := if r.2.2 > 10 then Severity.high else Severity.medium
      description := "Dangerous drop " ++ toString r.2.2 ++ " blocks nearby"
      position := some ⟨botPos.x + (r.1 : ℚ), botPos.y, botPos.z + (r.2.1 : ℚ)⟩ })

/-- The health rules of `detectDangers()`. -/
def healthDangers (health : ℚ) : List DangerObservation :=
  if health ≤ 5 then
    [⟨.low_health, .critical, "Critical health: " ++ toString health ++ "/20", none⟩]
  else if health ≤ 10 then
    [⟨.low_health, .high, "Low health: " ++ toString health ++ "/20", none⟩]
  else []

/-- The food rules of `detectDangers()`: note the severities are high and
medium, never critical. -/
def foodDangers (food : ℚ) : List DangerObservation :=
  if food ≤ 5 then
    [⟨.low_food, .high, "Critical food: " ++ toString food ++ "/20", none⟩]
  else if food ≤ 10 then
    [⟨.low_food, .medium, "Low food: " ++ toString food ++ "/20", none⟩]
  else []

/-- The lava rule: nearest lava block within 8 (when any). -/
def lavaDangers (lavaBlocks : List BlockObservation) : List DangerObservation :=
  match lavaBlocks.head? with
  | some nearest =>
    [⟨.lava, if nearest.distance < 3 then .critical else .medium,
      "Lava " ++ toString nearest.distance ++ "m away", some nearest.position⟩]
  | none => []

/-- The hostile-mob rule: nearest hostile entity of the last snapshot. -/
def hostileDangers (lastSnapshotEntities : List EntityObservation) :
    List DangerObservation :=
  match (lastSnapshotEntities.filter (fun e => e.isHostile)).head? with
  | some nearest =>
    [⟨.hostile_mob,
      if nearest.distance < 5 then .critical
      else if nearest.distance < 10 then .high else .medium,
      nearest.name ++ " " ++ toString nearest.distance ++ "m away",
      some nearest.position⟩]
  | none => []

/-- The cliff rule as a list. -/
def cliffDangers (solid : Int → Int → Int → Bool) (botPos : Vec3) :
    List DangerObservation :=
  match detectCliff solid botPos with
  | some d => [d]
  | none => []

/-- Source `detectDangers()`: health and food rules always run; the remaining
rules only run when the bot entity exists. -/
def detectDangers (health food : ℚ) (entityPresent : Bool)
    (lavaBlocks : List BlockObservation)
    (lastSnapshotEntities : List EntityObservation)
    (solid : Int → Int → Int → Bool) (botPos : Vec3) : List DangerObservation :=
  let base := healthDangers health ++ foodDangers food
  if entityPresent then
    base ++ lavaDangers lavaBlocks ++ hostileDangers lastSnapshotEntities ++
      cliffDangers solid botPos
  else base

theorem mem_healthDangers (health : ℚ) (d : DangerObservation)
    (hd : d ∈ healthDangers health) :
    d.type = DangerType.low_health ∧
      ((d.severity = Severity.critical ∧ health ≤ 5) ∨
        (d.severity = Severity.high ∧ health ≤ 10)) := by
  unfold healthDangers at hd
  split at hd
  · next h5 =>
    rw [List.mem_singleton.mp hd]
    exact ⟨rfl, Or.inl ⟨rfl, h5⟩⟩
  · split at hd
    · next h10 =>
      rw [List.mem_singleton.mp hd]
      exact ⟨rfl, Or.inr ⟨rfl, h10⟩⟩
    · cases hd

theorem mem_foodDangers (food : ℚ) (d : DangerObservation)
    (hd : d ∈ foodDangers food) :
    d.type = DangerType.low_food ∧
      ((d.severity = Severity.high ∧ food ≤ 5) ∨
        (d.severity = Severity.medium ∧ food ≤ 10)) := by
  unfold foodDangers at hd
  split at hd
  · next h5 =>
    rw [List.mem_singleton.mp hd]
    exact ⟨rfl, Or.inl ⟨rfl, h5⟩⟩
  · split at hd
    · next h10 =>
      rw [List.mem_singleton.mp hd]
      exact ⟨rfl, Or.inr ⟨rfl, h10⟩⟩
    · cases hd

theorem mem_lavaDangers (lavaBlocks : List BlockObservation)
    (d : DangerObservation) (hd : d ∈ lavaDangers lavaBlocks) :
    d.type = DangerType.lava := by
  unfold lavaDangers at hd
  split at hd
  · rw [List.mem_singleton.mp hd]
  · cases hd

theorem mem_hostileDangers (ents : List EntityObservation)
    (d : DangerObservation) (hd : d ∈ hostileDangers ents) :
    d.type = DangerType.hostile_mob := by
  unfold hostileDangers at hd
  split at hd
  · rw [List.mem_singleton.mp hd]
  · cases hd

theorem detectCliff_shape (solid : Int → Int → Int → Bool) (botPos : Vec3)
    (d : DangerObservation) (hd : detectCliff solid botPos = some d) :
    d.type = DangerType.cliff ∧
      ∃ r, scanCols solid (Int.floor botPos.x) (Int.floor botPos.y)
          (Int.floor botPos.z) cliffOffsets = some r ∧
        d.severity = (if r.2.2 > 10 then Severity.high else Severity.medium) := by
  unfold detectCliff at hd
  rcases hscan : scanCols solid (Int.floor botPos.x) (Int.floor botPos.y)
      (Int.floor botPos.z) cliffOffsets with _ | r
  · rw [hscan] at hd; cases hd
  · rw [hscan] at hd
    injection hd with hd
    rw [← hd]
    exact ⟨rfl, r, rfl, rfl⟩

theorem mem_cliffDangers (solid : Int → Int → Int → Bool) (botPos : Vec3)
    (d : DangerObservation) (hd : d ∈ cliffDangers solid botPos) :
    d.type = DangerType.cliff := by
  unfold cliffDangers at hd
  split at hd
  · next d0 hsome =>
    rw [List.mem_singleton.mp hd]
    exact (detectCliff_shape solid botPos d0 hsome).1
  · cases hd

/-- C7: every danger produced by the danger-detection rules satisfies the
I4 severity bounds: a low_health danger of severity critical implies
health at most 5, of severity high implies health at most 10; and a
low_food danger of severity critical implies food at most 5 (vacuously —
the food rule never emits critical), of severity high implies food at
most 10. -/
theorem danger_severity_bounds (health food : ℚ) (entityPresent : Bool)
    (lavaBlocks : List BlockObservation)
    (lastSnapshotEntities : List EntityObservation)
    (solid : Int → Int → Int → Bool) (botPos : Vec3)
    (hh0 : 0 ≤ health) (hh20 : health ≤ 20) (hf0 : 0 ≤ food) (hf20 : food ≤ 20) :
    ∀ d ∈ detectDangers health food entityPresent lavaBlocks lastSnapshotEntities
        solid botPos,
      (d.type = DangerType.low_health ∧ d.severity = Severity.critical → health ≤ 5) ∧
      (d.type = DangerType.low_health ∧ d.severity = Severity.high → health ≤ 10) ∧
      (d.type = DangerType.low_food ∧ d.severity = Severity.critical → food ≤ 5) ∧
      (d.type = DangerType.low_food ∧ d.severity = Severity.high → food ≤ 10) := by
  intro d hd
  have hmem : d ∈ healthDangers health ∨ d ∈ foodDangers food ∨
      d.type = DangerType.lava ∨ d.type = DangerType.hostile_mob ∨
      d.type = DangerType.cliff := by
    unfold detectDangers at hd
    split at hd
    · rcases List.mem_append.mp hd with h | h
      · rcases List.mem_append.mp h with h | h
        · rcases List.mem_append.mp h with h | h
          · rcases List.mem_append.mp h with h | h
            · exact Or.inl h
            · exact Or.inr (Or.inl h)
          · exact Or.inr (Or.inr (Or.inl (mem_lavaDangers _ _ h)))
        · exact Or.inr (Or.inr (Or.inr (Or.inl (mem_hostileDangers _ _ h))))
      · exact Or.inr (Or.inr (Or.inr (Or.inr (mem_cliffDangers _ _ _ h))))
    · rcases List.mem_append.mp hd with h | h
      · exact Or.inl h
      · exact Or.inr (Or.inl h)
  rcases hmem with h | h | h | h | h
  · rcases mem_healthDangers health d h with ⟨hty, hsev⟩
    refine ⟨?_, ?_, ?_, ?_⟩
    · rintro ⟨-, hcrit⟩
      rcases hsev with ⟨-, h5⟩ | ⟨hhigh, -⟩
      · exact h5
      · rw [hcrit] at hhigh; cases hhigh
    · rintro ⟨-, hhigh⟩
      rcases hsev with ⟨hcrit, -⟩ | ⟨-, h10⟩
      · rw [hhigh] at hcrit; cases hcrit
      · exact h10
    · rintro ⟨hlf, -⟩
      rw [hty] at hlf; cases hlf
    · rintro ⟨hlf, -⟩
      rw [hty] at hlf; cases hlf
  · rcases mem_foodDangers food d h with ⟨hty, hsev⟩
    refine ⟨?_, ?_, ?_, ?_⟩
    · rintro ⟨hlh, -⟩
      rw [hty] at hlh; cases hlh
    · rintro ⟨hlh, -⟩
      rw [hty] at hlh; cases hlh
    · rintro ⟨-, hcrit⟩
      rcases hsev with ⟨hhigh, -⟩ | ⟨hmed, -⟩
      · rw [hcrit] at hhigh; cases hhigh
      · rw [hcrit] at hmed; cases hmed
    · rintro ⟨-, hhigh⟩
      rcases hsev with ⟨-, h5⟩ | ⟨hmed, -⟩
      · exact le_trans h5 (by norm_num)
      · rw [hhigh] at hmed; cases hmed
  all_goals
    refine ⟨?_, ?_, ?_, ?_⟩ <;>
      · rintro ⟨hty, -⟩
        rw [h] at hty
        cases hty

/-- Witness for `danger_severity_bounds`: the spec's danger scenario
(health 4, food 20) satisfies the range hypotheses, and the bounds
evaluate on its danger list. -/
theorem danger_severity_bounds_witness :
    ((0 : ℚ) ≤ 4 ∧ (4 : ℚ) ≤ 20 ∧ (0 : ℚ) ≤ 20 ∧ (20 : ℚ) ≤ 20) ∧
    ∀ d ∈ detectDangers 4 20 false [] [] (fun _ _ _ => false) ⟨0, 0, 0⟩,
      (d.type = DangerType.low_health ∧ d.severity = Severity.critical → (4 : ℚ) ≤ 5) ∧
      (d.type = DangerType.low_health ∧ d.severity = Severity.high → (4 : ℚ) ≤ 10) ∧
      (d.type = DangerType.low_food ∧ d.severity = Severity.critical → (20 : ℚ) ≤ 5) ∧
      (d.type = DangerType.low_food ∧ d.severity = Severity.high → (20 : ℚ) ≤ 10) :=
  ⟨⟨by norm_num, by norm_num, by norm_num, by norm_num⟩,
   danger_severity_bounds 4 20 false [] [] (fun _ _ _ => false) ⟨0, 0, 0⟩
     (by norm_num) (by norm_num) (by norm_num) (by norm_num)⟩

theorem dropDistanceAt_le_9 (solid : Int → Int → Int → Bool)
    (px py pz dx dz : Int) : dropDistanceAt solid px py pz dx dz ≤ 9 := by
  rcases hf : firstSolidDepth solid px py pz dx dz with _ | k
  · unfold dropDistanceAt
    rw [hf]
    decide
  · unfold dropDistanceAt
    rw [hf]
    unfold firstSolidDepth at hf
    have hk : k ∈ List.range 10 := List.mem_of_find?_eq_some hf
    have hk10 := List.mem_range.mp hk
    simp only [Option.getD_some]
    omega

theorem colCliff_bounds (solid : Int → Int → Int → Bool) (px py pz dx dz : Int)
    (drop : Nat) (hc : colCliff solid px py pz dx dz = some drop) :
    5 ≤ drop ∧ drop ≤ 9 := by
  unfold colCliff at hc
  split at hc
  · next hgt =>
    injection hc with hc
    have h9 := dropDistanceAt_le_9 solid px py pz dx dz
    omega
  · cases hc

theorem scanCols_bounds (solid : Int → Int → Int → Bool) (px py pz : Int)
    (offs : List (Int × Int)) (r : Int × Int × Nat)
    (hs : scanCols solid px py pz offs = some r) : 5 ≤ r.2.2 ∧ r.2.2 ≤ 9 := by
  induction offs with
  | nil => cases hs
  | cons o rest ih =>
    rcases o with ⟨dx, dz⟩
    unfold scanCols at hs
    rcases hc : colCliff solid px py pz dx dz with _ | drop
    · rw [hc] at hs
      exact ih hs
    · rw [hc] at hs
      injection hs with hs
      rw [← hs]
      exact colCliff_bounds solid px py pz dx dz drop hc

/-- C10: the cliff scan looks at most 10 cells downward (offsets 0 .. -9),
so every cliff danger it returns stems from a drop distance between 5 and
9 and carries severity medium; severity high (requiring a drop greater
than 10) is unreachable; and a neighbor column with no solid block in the
10 scanned cells contributes no cliff danger at all. -/
theorem cliff_detection_bounds :
    (∀ (solid : Int → Int → Int → Bool) (botPos : Vec3) (d : DangerObservation),
      detectCliff solid botPos = some d →
        d.type = DangerType.cliff ∧ d.severity = Severity.medium ∧
          d.severity ≠ Severity.high) ∧
    (∀ (solid : Int → Int → Int → Bool) (px py pz dx dz : Int) (drop : Nat),
      colCliff solid px py pz dx dz = some drop → 5 ≤ drop ∧ drop ≤ 9) ∧
    (∀ (solid : Int → Int → Int → Bool) (px py pz dx dz : Int),
      (∀ k : Nat, k < 10 → solid (px + dx) (py - (k : Int)) (pz + dz) = false) →
        colCliff solid px py pz dx dz = none) := by
  refine ⟨?_, colCliff_bounds, ?_⟩
  · intro solid botPos d hd
    rcases detectCliff_shape solid botPos d hd with ⟨hty, r, hscan, hsev⟩
    have hb := scanCols_bounds solid _ _ _ cliffOffsets r hscan
    have hmed : d.severity = Severity.medium := by
      rw [hsev, if_neg (by omega)]
    refine ⟨hty, hmed, ?_⟩
    rw [hmed]
    intro hcon
    cases hcon
  · intro solid px py pz dx dz hnone
    have hfind : firstSolidDepth solid px py pz dx dz = none := by
      unfold firstSolidDepth
      apply List.find?_eq_none.mpr
      intro k hk
      rw [hnone k (List.mem_range.mp hk)]
      exact Bool.false_ne_true
    unfold colCliff dropDistanceAt
    rw [hfind]
    rfl

/-- A world whose solid cells all sit at height -6. -/
def c10World : Int → Int → Int → Bool := fun _ y _ => y == -6

/-- The cliff danger that world produces for a bot at the origin. -/
def c10Danger : DangerObservation :=
  ⟨DangerType.cliff, Severity.medium, "Dangerous drop 6 blocks nearby",
    some ⟨-3, 0, -3⟩⟩

theorem c10_detectCliff_eq : detectCliff c10World ⟨0, 0, 0⟩ = some c10Danger := by
  have hscan : scanCols c10World 0 0 0 cliffOffsets = some (-3, -3, 6) := by rfl
  unfold detectCliff
  dsimp only
  simp only [Int.floor_zero]
  rw [hscan]
  refine congrArg some ?_
  unfold c10Danger
  simp only [DangerObservation.mk.injEq]
  refine ⟨trivial, by norm_num, by decide, ?_⟩
  simp only [Option.some.injEq, Vec3.mk.injEq]
  norm_num

/-- Witness for `cliff_detection_bounds`: the height -6 world yields a
concrete medium cliff danger at the origin (discharging the premises of
the first two parts), and a solid-free column satisfies the third part's
hypothesis. -/
theorem cliff_detection_bounds_witness :
    (detectCliff c10World ⟨0, 0, 0⟩ = some c10Danger) ∧
    (c10Danger.type = DangerType.cliff ∧ c10Danger.severity = Severity.medium ∧
      c10Danger.severity ≠ Severity.high) ∧
    (colCliff c10World 0 0 0 (-3) (-3) = some 6 ∧ 5 ≤ 6 ∧ 6 ≤ 9) ∧
    colCliff (fun _ _ _ => false) 0 0 0 1 1 = none :=
  ⟨c10_detectCliff_eq,
   cliff_detection_bounds.1 c10World ⟨0, 0, 0⟩ c10Danger c10_detectCliff_eq,
   ⟨by decide, cliff_detection_bounds.2.1 c10World 0 0 0 (-3) (-3) 6 (by decide)⟩,
   cliff_detection_bounds.2.2 (fun _ _ _ => false) 0 0 0 1 1 (fun _ _ => rfl)⟩

end AxiomMind
